import Mathlib

/-!
Verification development for the Pokemon evolution-advisor repository
(`src/evolution_chains.py`, `src/generate_evolution_chains.py`,
`src/team_analyzer.py`, `src/main.py`).

The Python data model is embedded shallowly:
* a stage of an evolution chain (`'NAME'` or a list of alternative names)
  becomes `Item`;
* the module-level dict `SPECIAL_CHAINS` becomes an insertion-ordered
  association list (Python dicts preserve insertion order);
* pandas rows become the structure `PokeRecord`; the float
  type-effectiveness multipliers become `Rat` (every multiplier in the
  dataset is an exact binary fraction);
* a missing secondary type (`NaN` in pandas) becomes `Option.none`, and
  `pyStrNe` reproduces Python's `!=` on such values (`NaN != NaN` is true);
* code that can raise (`.iloc[0]` on an empty frame raises `IndexError`,
  `list.index` on a missing element raises `ValueError`) returns
  `Except PyErr`.
-/

namespace PokeAdvisor

/-! ## Embedding of `src/evolution_chains.py` -/

/-- One element of an evolution chain: a plain stage name, or a branch
holding the alternative evolution options (a Python sub-list). -/
inductive Item where
  | name (s : String)
  | branch (opts : List String)
deriving DecidableEq, Repr

abbrev Chain := List Item

/-- Python's `str.upper()` on the ASCII creature names: upper-case every
character.  (Defined directly on the character list so that it evaluates
inside the kernel.) -/
def pyUpper (s : String) : String :=
  ⟨s.data.map Char.toUpper⟩

/-- Python's `str.lower()`, likewise character by character. -/
def pyLower (s : String) : String :=
  ⟨s.data.map Char.toLower⟩

/-- The module-level dict `SPECIAL_CHAINS` of `evolution_chains.py`,
as an insertion-ordered association list. -/
def SPECIAL_CHAINS : List (String × Chain) := [
  ("EEVEE", [.name "EEVEE", .branch ["VAPOREON", "JOLTEON", "FLAREON", "ESPEON",
    "UMBREON", "LEAFEON", "GLACEON", "SYLVEON"]]),
  ("VAPOREON", [.name "VAPOREON"]),
  ("JOLTEON", [.name "JOLTEON"]),
  ("FLAREON", [.name "FLAREON"]),
  ("ESPEON", [.name "ESPEON"]),
  ("UMBREON", [.name "UMBREON"]),
  ("LEAFEON", [.name "LEAFEON"]),
  ("GLACEON", [.name "GLACEON"]),
  ("SYLVEON", [.name "SYLVEON"]),
  ("TYROGUE", [.name "TYROGUE", .branch ["HITMONLEE", "HITMONCHAN", "HITMONTOP"]]),
  ("HITMONLEE", [.name "HITMONLEE"]),
  ("HITMONCHAN", [.name "HITMONCHAN"]),
  ("HITMONTOP", [.name "HITMONTOP"]),
  ("ODDISH", [.name "ODDISH", .name "GLOOM", .branch ["VILEPLUME", "BELLOSSOM"]]),
  ("GLOOM", [.name "GLOOM", .branch ["VILEPLUME", "BELLOSSOM"]]),
  ("VILEPLUME", [.name "VILEPLUME"]),
  ("BELLOSSOM", [.name "BELLOSSOM"]),
  ("POLIWAG", [.name "POLIWAG", .name "POLIWHIRL", .branch ["POLIWRATH", "POLITOED"]]),
  ("POLIWHIRL", [.name "POLIWHIRL", .branch ["POLIWRATH", "POLITOED"]]),
  ("POLIWRATH", [.name "POLIWRATH"]),
  ("POLITOED", [.name "POLITOED"]),
  ("BULBASAUR", [.name "BULBASAUR", .name "IVYSAUR", .name "VENUSAUR"]),
  ("IVYSAUR", [.name "IVYSAUR", .name "VENUSAUR"]),
  ("VENUSAUR", [.name "VENUSAUR"]),
  ("CHARMANDER", [.name "CHARMANDER", .name "CHARMELEON", .name "CHARIZARD"]),
  ("CHARMELEON", [.name "CHARMELEON", .name "CHARIZARD"]),
  ("CHARIZARD", [.name "CHARIZARD"]),
  ("SQUIRTLE", [.name "SQUIRTLE", .name "WARTORTLE", .name "BLASTOISE"]),
  ("WARTORTLE", [.name "WARTORTLE", .name "BLASTOISE"]),
  ("BLASTOISE", [.name "BLASTOISE"])]

/-- Dict lookup `table[k]` / `k in table` for the chain table. -/
def lookupChain (table : List (String × Chain)) (k : String) : Option Chain :=
  (table.find? (fun p => p.1 == k)).map (·.2)

/-- Python `pokemon_name in chain`: equality test against each element of the
list; a string only ever equals a plain stage, never a sub-list. -/
def plainMem (u : String) (ch : Chain) : Bool :=
  ch.contains (Item.name u)

/-- Python `isinstance(item, list) and pokemon_name in item` for some element
of the chain. -/
def branchMem (u : String) (ch : Chain) : Bool :=
  ch.any fun it =>
    match it with
    | .branch l => l.contains u
    | .name _ => false

/-- The `for chain in SPECIAL_CHAINS.values():` loop of
`get_evolution_chain`: per chain, first the plain-stage test (returning the
suffix from the matching index), then the branch-membership test
(returning the one-element chain). -/
def scanChains (u : String) : List (String × Chain) → Option Chain
  | [] => none
  | (_, ch) :: rest =>
    if plainMem u ch then some (ch.drop (ch.indexOf (Item.name u)))
    else if branchMem u ch then some [Item.name u]
    else scanChains u rest

/-- Embedding of `get_evolution_chain` (`evolution_chains.py:72-97`). -/
def get_evolution_chain (pokemon_name : String) : Option Chain :=
  let u := pyUpper pokemon_name
  match lookupChain SPECIAL_CHAINS u with
  | some ch => some ch
  | none => scanChains u SPECIAL_CHAINS

/-- Embedding of `get_next_evolution` (`evolution_chains.py:99-113`).
Python's `if not chain` is true both for `None` and for an empty list. -/
def get_next_evolution (pokemon_name : String) : Option Item :=
  match get_evolution_chain pokemon_name with
  | none => none
  | some [] => none
  | some [_] => none
  | some (_ :: next :: _) => some next

/-- Embedding of `get_final_evolution` (`evolution_chains.py:115-127`). -/
def get_final_evolution (pokemon_name : String) : Option Item :=
  match get_evolution_chain pokemon_name with
  | none => none
  | some [] => none
  | some ch => ch.getLast?

/-- Modelled from the spec (section 4.1), for the refinement claim C1: the
resolution procedure exactly as the specification words it, applied to the
already upper-cased name.  First the key lookup (full stored chain), then —
across all chains — the plain-stage case (suffix from that position), then
the branch-membership case (one-element chain), otherwise `none`. -/
def specResolve (u : String) : Option Chain :=
  if (SPECIAL_CHAINS.map Prod.fst).contains u then
    lookupChain SPECIAL_CHAINS u
  else if SPECIAL_CHAINS.any (fun p => plainMem u p.2) then
    (SPECIAL_CHAINS.find? (fun p => plainMem u p.2)).map
      (fun p => p.2.drop (p.2.indexOf (Item.name u)))
  else if SPECIAL_CHAINS.any (fun p => branchMem u p.2) then
    some [Item.name u]
  else
    none

/-! Closure of the concrete table: every name occurring anywhere in a chain
(plain stage or branch member) is itself a key of the table.  This is what
makes the per-chain scan of the code and the all-chains-first scan of the
spec agree. -/

/-- Names contributed by one chain element. -/
def itemNames : Item → List String
  | .name s => [s]
  | .branch l => l

/-- All names occurring in a chain. -/
def chainNames (ch : Chain) : List String :=
  ch.flatMap itemNames

/-- All names occurring anywhere in the table. -/
def tableNames : List String :=
  SPECIAL_CHAINS.flatMap fun p => chainNames p.2

lemma tableNames_mem_keys :
    ∀ n ∈ tableNames, n ∈ SPECIAL_CHAINS.map Prod.fst := by decide

lemma mem_tableNames_of_plainMem {u : String} {k : String} {ch : Chain}
    (hmem : (k, ch) ∈ SPECIAL_CHAINS) (hp : plainMem u ch = true) :
    u ∈ tableNames := by
  have hin : Item.name u ∈ ch := by
    simpa [plainMem, List.elem_iff] using hp
  have : u ∈ chainNames ch := by
    unfold chainNames
    exact List.mem_flatMap.mpr ⟨Item.name u, hin, by simp [itemNames]⟩
  unfold tableNames
  exact List.mem_flatMap.mpr ⟨(k, ch), hmem, this⟩

lemma mem_tableNames_of_branchMem {u : String} {k : String} {ch : Chain}
    (hmem : (k, ch) ∈ SPECIAL_CHAINS) (hb : branchMem u ch = true) :
    u ∈ tableNames := by
  rcases List.any_eq_true.mp hb with ⟨it, hit, hc⟩
  cases it with
  | name s => simp at hc
  | branch l =>
    have hin : u ∈ l := by simpa [List.elem_iff] using hc
    have : u ∈ chainNames ch := by
      unfold chainNames
      exact List.mem_flatMap.mpr ⟨Item.branch l, hit, by simpa [itemNames]⟩
    unfold tableNames
    exact List.mem_flatMap.mpr ⟨(k, ch), hmem, this⟩

lemma scanChains_eq_none {u : String} {t : List (String × Chain)}
    (h : ∀ p ∈ t, plainMem u p.2 = false ∧ branchMem u p.2 = false) :
    scanChains u t = none := by
  induction t with
  | nil => rfl
  | cons p rest ih =>
    obtain ⟨hp, hb⟩ := h p (List.mem_cons_self p rest)
    obtain ⟨k, ch⟩ := p
    simp only at hp hb
    unfold scanChains
    rw [hp, hb]
    simp only [Bool.false_eq_true, if_false]
    exact ih fun q hq => h q (List.mem_cons_of_mem _ hq)

/-- Helper: when the upper-cased name is not a key, it occurs nowhere in the
table at all. -/
lemma not_occurs_of_not_key {u : String}
    (h : u ∉ SPECIAL_CHAINS.map Prod.fst) :
    ∀ p ∈ SPECIAL_CHAINS, plainMem u p.2 = false ∧ branchMem u p.2 = false := by
  intro p hp
  constructor
  · by_contra hne
    have : plainMem u p.2 = true := by
      cases hval : plainMem u p.2 with
      | false => exact absurd hval hne
      | true => rfl
    exact h (tableNames_mem_keys u (mem_tableNames_of_plainMem hp this))
  · by_contra hne
    have : branchMem u p.2 = true := by
      cases hval : branchMem u p.2 with
      | false => exact absurd hval hne
      | true => rfl
    exact h (tableNames_mem_keys u (mem_tableNames_of_branchMem hp this))

/-- C1.  For every creature name, `get_evolution_chain` agrees with the
specification's wording (`specResolve`) applied to the upper-cased name: the
full stored chain when the upper-cased name is a key of the table; otherwise
the suffix from the first plain-stage occurrence; otherwise the one-element
chain when the name occurs only inside a branch set; otherwise `none`.  In
particular the lookup is case-insensitive. -/
theorem C1_resolver_matches_spec (s : String) :
    get_evolution_chain s = specResolve (pyUpper s) := by
  unfold get_evolution_chain specResolve
  cases hfind : SPECIAL_CHAINS.find? (fun p => p.1 == pyUpper s) with
  | some pr =>
    have hkey : pyUpper s ∈ SPECIAL_CHAINS.map Prod.fst := by
      have hmem := List.mem_of_find?_eq_some hfind
      have hbeq := List.find?_some hfind
      have : pr.1 = pyUpper s := by simpa using hbeq
      exact this ▸ List.mem_map.mpr ⟨pr, hmem, rfl⟩
    have hcont : (SPECIAL_CHAINS.map Prod.fst).contains (pyUpper s) = true := by
      simpa [List.elem_iff] using hkey
    simp only [lookupChain, hfind, Option.map_some]
    rw [if_pos hcont]
    simp [lookupChain, hfind]
  | none =>
    have hkey : pyUpper s ∉ SPECIAL_CHAINS.map Prod.fst := by
      intro hmem
      rcases List.mem_map.mp hmem with ⟨pr, hpr, hfst⟩
      have := List.find?_eq_none.mp hfind pr hpr
      simp [hfst] at this
    have hcont : (SPECIAL_CHAINS.map Prod.fst).contains (pyUpper s) = false := by
      cases hval : (SPECIAL_CHAINS.map Prod.fst).contains (pyUpper s) with
      | false => rfl
      | true => exact absurd (by simpa [List.elem_iff] using hval) hkey
    have hocc := not_occurs_of_not_key hkey
    have hscan := scanChains_eq_none hocc
    have hanyp : SPECIAL_CHAINS.any (fun p => plainMem (pyUpper s) p.2) = false := by
      rw [List.any_eq_false]
      intro p hp
      simp [(hocc p hp).1]
    have hanyb : SPECIAL_CHAINS.any (fun p => branchMem (pyUpper s) p.2) = false := by
      rw [List.any_eq_false]
      intro p hp
      simp [(hocc p hp).2]
    simp [lookupChain, hfind, hcont, hscan, hanyp, hanyb]

/-- Helper: whenever the resolver returns a chain at all, that chain is one
of the stored table entries, keyed by the upper-cased input (a consequence of
the table's closure: every occurring name is a key). -/
lemma resolve_eq_some {s : String} {ch : Chain}
    (h : get_evolution_chain s = some ch) :
    ∃ p ∈ SPECIAL_CHAINS, p.1 = pyUpper s ∧ p.2 = ch := by
  unfold get_evolution_chain at h
  cases hfind : SPECIAL_CHAINS.find? (fun p => p.1 == pyUpper s) with
  | some pr =>
    refine ⟨pr, List.mem_of_find?_eq_some hfind, ?_, ?_⟩
    · simpa using List.find?_some hfind
    · simp only [lookupChain, hfind, Option.map_some] at h
      simpa using h
  | none =>
    exfalso
    have hkey : pyUpper s ∉ SPECIAL_CHAINS.map Prod.fst := by
      intro hmem
      rcases List.mem_map.mp hmem with ⟨pr, hpr, hfst⟩
      have := List.find?_eq_none.mp hfind pr hpr
      simp [hfst] at this
    have hscan := scanChains_eq_none (not_occurs_of_not_key hkey)
    simp only [lookupChain, hfind, Option.map_none, hscan] at h
    exact Option.noConfusion h

/-- Table-wide boolean check behind the amended C2: every stored chain's
head is the plain stage of its own key; every plain stage of a chain
resolves to a chain that starts with itself and is a suffix of the full
stored chain; every branch member resolves to the one-element chain holding
only itself. -/
def chainsWellFormed : Bool :=
  SPECIAL_CHAINS.all fun p =>
    (p.2.head? == some (Item.name p.1)) &&
    p.2.all fun it =>
      match it with
      | .name n =>
        match get_evolution_chain n, get_evolution_chain p.1 with
        | some cn, some ck =>
          (cn.head? == some (Item.name n)) && cn.isSuffixOf ck
        | _, _ => false
      | .branch l =>
        l.all fun n => get_evolution_chain n == some [Item.name n]

/-- C2 (corrected form).  Every stored chain starts with its own key; every
creature occurring as a plain stage of a stored chain resolves to a chain
that starts with that creature and is a suffix of the chain stored for that
entry's key (hence of the base form's full chain, taking the base entry);
every creature occurring inside a branch set resolves to the one-element
chain containing only itself — which is why the suffix property cannot be
extended to branch members, as `C2_counterexample` shows. -/
theorem C2_chain_suffix_amended : chainsWellFormed = true := by decide

/-- C2 counterexample.  The claim as stated fails at VILEPLUME: VILEPLUME
occurs inside the branch set of ODDISH's chain, yet `resolveChain(VILEPLUME)`
is the one-element chain `[VILEPLUME]`, whose first element is not ODDISH
(the base form of the chain it occurs in) and which is not a suffix of
`resolveChain(ODDISH)`. -/
theorem C2_counterexample :
    get_evolution_chain "VILEPLUME" = some [Item.name "VILEPLUME"] ∧
    ("ODDISH", [Item.name "ODDISH", Item.name "GLOOM",
      Item.branch ["VILEPLUME", "BELLOSSOM"]]) ∈ SPECIAL_CHAINS ∧
    branchMem "VILEPLUME" [Item.name "ODDISH", Item.name "GLOOM",
      Item.branch ["VILEPLUME", "BELLOSSOM"]] = true ∧
    get_evolution_chain "ODDISH" = some [Item.name "ODDISH", Item.name "GLOOM",
      Item.branch ["VILEPLUME", "BELLOSSOM"]] ∧
    List.isSuffixOf [Item.name "VILEPLUME"]
      [Item.name "ODDISH", Item.name "GLOOM",
        Item.branch ["VILEPLUME", "BELLOSSOM"]] = false ∧
    ((get_evolution_chain "VILEPLUME").getD []).head? ≠
      some (Item.name "ODDISH") := by
  decide

/-- Table-wide boolean check behind C3: for every stored chain, the last
element either is a plain stage whose own resolution has no next stage, or
is a branch set all of whose members' resolutions have no next stage. -/
def finalHasNoNext : Bool :=
  SPECIAL_CHAINS.all fun p =>
    match p.2.getLast? with
    | some (Item.name f) => get_next_evolution f == none
    | some (Item.branch l) => l.all fun m => get_next_evolution m == none
    | none => false

lemma finalHasNoNext_true : finalHasNoNext = true := by decide

/-- C3.  For every creature with a recorded chain, the final stage admits no
further evolution: when `get_final_evolution` yields a single name, that name
has no next evolution, and when it yields a branch set, every member of the
set has no next evolution. -/
theorem C3_final_stage_has_no_next (s : String) (ch : Chain)
    (h : get_evolution_chain s = some ch) :
    ∃ it, get_final_evolution s = some it ∧
      (∀ f, it = Item.name f → get_next_evolution f = none) ∧
      (∀ l, it = Item.branch l → ∀ m ∈ l, get_next_evolution m = none) := by
  obtain ⟨p, hp, _, hch⟩ := resolve_eq_some h
  have hall := List.all_eq_true.mp finalHasNoNext_true p hp
  cases hlast : p.2.getLast? with
  | none => rw [hlast] at hall; simp at hall
  | some it =>
    have hne : ch ≠ [] := by
      intro hnil
      rw [hch, hnil] at hlast
      simp at hlast
    have hfin : get_final_evolution s = some it := by
      unfold get_final_evolution
      rw [h]
      cases hc : ch with
      | nil => exact absurd hc hne
      | cons a as =>
        rw [hch, hc] at hlast
        simpa using hlast
    refine ⟨it, hfin, ?_, ?_⟩
    · intro f hf
      rw [hlast, hf] at hall
      simp only at hall
      exact eq_of_beq hall
    · intro l hl m hm
      rw [hlast, hl] at hall
      simp only at hall
      exact eq_of_beq (List.all_eq_true.mp hall m hm)

/-- Witness for C3 at the concrete input ODDISH. -/
theorem C3_witness :
    get_evolution_chain "ODDISH" = some [Item.name "ODDISH", Item.name "GLOOM",
      Item.branch ["VILEPLUME", "BELLOSSOM"]] ∧
    (∃ it, get_final_evolution "ODDISH" = some it ∧
      (∀ f, it = Item.name f → get_next_evolution f = none) ∧
      (∀ l, it = Item.branch l → ∀ m ∈ l, get_next_evolution m = none)) :=
  ⟨by decide, C3_final_stage_has_no_next "ODDISH"
    [Item.name "ODDISH", Item.name "GLOOM",
      Item.branch ["VILEPLUME", "BELLOSSOM"]] (by decide)⟩

/-! ## Embedding of the stat-delta analyzer (`src/main.py:8-60`) -/

/-- The fields of a dataset row used by `calculate_stat_changes` and
`analyze_evolution_option`.  A missing secondary type (`NaN` in the pandas
frame) is `none`. -/
structure Creature where
  name : String
  type1 : String
  type2 : Option String
  hp : Int
  attack : Int
  defense : Int
  sp_attack : Int
  sp_defense : Int
  speed : Int
deriving DecidableEq, Repr

/-- The per-stat delta dict of `calculate_stat_changes`. -/
structure StatChanges where
  hp : Int
  attack : Int
  defense : Int
  sp_attack : Int
  sp_defense : Int
  speed : Int
deriving DecidableEq, Repr

/-- Embedding of `calculate_stat_changes` (`main.py:8-14`). -/
def calculate_stat_changes (base_pokemon evolved_form : Creature) : StatChanges :=
  { hp := evolved_form.hp - base_pokemon.hp
    attack := evolved_form.attack - base_pokemon.attack
    defense := evolved_form.defense - base_pokemon.defense
    sp_attack := evolved_form.sp_attack - base_pokemon.sp_attack
    sp_defense := evolved_form.sp_defense - base_pokemon.sp_defense
    speed := evolved_form.speed - base_pokemon.speed }

/-- The benefit/drawback strings of `analyze_evolution_option`, with the
interpolated values carried as payloads. -/
inductive Tag where
  | strongOffensive (n : Int)
  | decreasedOffensive (n : Int)
  | majorDefensive (n : Int)
  | improvedSurvivability (n : Int)
  | significantSpeed (n : Int)
  | slightSpeed (n : Int)
  | speedDecrease (n : Int)
  | typeChange (oldTypes newTypes : String)
deriving DecidableEq, Repr

/-- Python's `!=` between two possibly-missing type cells.  pandas stores a
missing `type2` as the float `NaN`, and `NaN != x` — including
`NaN != NaN` — evaluates to `True`. -/
def pyStrNe : Option String → Option String → Bool
  | some x, some y => x != y
  | _, _ => true

/-- The `"Type1/Type2"` rendering used in the type-change message
(`main.py:48-51`); the `pd.notna` guard drops a missing secondary type. -/
def fmtTypes (c : Creature) : String :=
  c.type1 ++ match c.type2 with
  | some t => "/" ++ t
  | none => ""

/-- Result dict of `analyze_evolution_option`. -/
structure EvoOption where
  name : String
  stat_changes : StatChanges
  total_change : Int
  benefits : List Tag
  drawbacks : List Tag
deriving DecidableEq, Repr

/-- Embedding of `analyze_evolution_option` (`main.py:16-60`): the four
independent classifications, appended to `benefits`/`drawbacks` in source
order. -/
def analyze_evolution_option (current evolved : Creature) : EvoOption :=
  let stat_changes := calculate_stat_changes current evolved
  let total_change := stat_changes.hp + stat_changes.attack + stat_changes.defense +
    stat_changes.sp_attack + stat_changes.sp_defense + stat_changes.speed
  let offensive_change := stat_changes.attack + stat_changes.sp_attack
  let defensive_change := stat_changes.defense + stat_changes.sp_defense + stat_changes.hp
  let offBenefits : List Tag :=
    if 30 < offensive_change then [.strongOffensive offensive_change] else []
  let offDrawbacks : List Tag :=
    if 30 < offensive_change then []
    else if offensive_change < 0 then [.decreasedOffensive offensive_change]
    else []
  let defBenefits : List Tag :=
    if 45 < defensive_change then [.majorDefensive defensive_change]
    else if 20 < defensive_change then [.improvedSurvivability defensive_change]
    else []
  let speedBenefits : List Tag :=
    if 20 < stat_changes.speed then [.significantSpeed stat_changes.speed]
    else if 0 < stat_changes.speed then [.slightSpeed stat_changes.speed]
    else []
  let speedDrawbacks : List Tag :=
    if 20 < stat_changes.speed then []
    else if 0 < stat_changes.speed then []
    else if stat_changes.speed < 0 then [.speedDecrease stat_changes.speed]
    else []
  let typeBenefits : List Tag :=
    if (current.type1 != evolved.type1) || pyStrNe current.type2 evolved.type2 then
      [.typeChange (fmtTypes current) (fmtTypes evolved)]
    else []
  { name := evolved.name
    stat_changes := stat_changes
    total_change := total_change
    benefits := offBenefits ++ defBenefits ++ speedBenefits ++ typeBenefits
    drawbacks := offDrawbacks ++ speedDrawbacks }

/-- The defensive delta of the claim: Δdefense + Δsp_defense + Δhp. -/
def defensiveDelta (b e : Creature) : Int :=
  (e.defense - b.defense) + (e.sp_defense - b.sp_defense) + (e.hp - b.hp)

/-- The speed delta of the claim. -/
def speedDelta (b e : Creature) : Int :=
  e.speed - b.speed

/-- C4 counterexample.  A pair of records whose defensive delta is exactly
20 and whose speed delta is exactly 0: the claim demands the
"improved survivability" benefit (20 lies in 20–45 inclusive) and the
"slight speed improvement" benefit (0 lies in 0–20 inclusive), but the code
(`main.py:35,41`: strict `>` comparisons) emits no benefit at all. -/
def c4_base : Creature :=
  ⟨"GLOOM", "Grass", some "Poison", 60, 65, 70, 85, 75, 40⟩

def c4_evolved : Creature :=
  ⟨"VILEPLUME", "Grass", some "Poison", 80, 65, 70, 85, 75, 40⟩

theorem C4_counterexample :
    defensiveDelta c4_base c4_evolved = 20 ∧
    speedDelta c4_base c4_evolved = 0 ∧
    (analyze_evolution_option c4_base c4_evolved).benefits = [] := by
  decide

/-- C4 (corrected form).  "Improved survivability" is emitted exactly when
the defensive delta lies in 21–45 (strictly above 20, at most 45), with
"major defensive boost" exactly when it exceeds 45; "slight speed
improvement" is emitted exactly when the speed delta lies in 1–20 (strictly
positive, at most 20), with "significant speed boost" exactly when it
exceeds 20 and the "speed decrease" drawback exactly when it is negative.
Both boundary values of the original claim (20 and 0) get no tag. -/
theorem C4_stat_tags_amended (b e : Creature) :
    (Tag.improvedSurvivability (defensiveDelta b e) ∈
        (analyze_evolution_option b e).benefits ↔
      20 < defensiveDelta b e ∧ defensiveDelta b e ≤ 45) ∧
    (Tag.majorDefensive (defensiveDelta b e) ∈
        (analyze_evolution_option b e).benefits ↔
      45 < defensiveDelta b e) ∧
    (Tag.slightSpeed (speedDelta b e) ∈
        (analyze_evolution_option b e).benefits ↔
      0 < speedDelta b e ∧ speedDelta b e ≤ 20) ∧
    (Tag.significantSpeed (speedDelta b e) ∈
        (analyze_evolution_option b e).benefits ↔
      20 < speedDelta b e) ∧
    (Tag.speedDecrease (speedDelta b e) ∈
        (analyze_evolution_option b e).drawbacks ↔
      speedDelta b e < 0) := by
  have hd : defensiveDelta b e =
      (calculate_stat_changes b e).defense + (calculate_stat_changes b e).sp_defense +
        (calculate_stat_changes b e).hp := by
    simp [defensiveDelta, calculate_stat_changes]
  have hs : speedDelta b e = (calculate_stat_changes b e).speed := by
    simp [speedDelta, calculate_stat_changes]
  simp only [analyze_evolution_option, hd, hs, List.mem_append]
  split_ifs <;> simp_all <;> omega

/-- C5 evaluation at the failing input.  Two records with the same primary
type and both secondary types missing: the claim (and the spec) say no
type-change tag may be emitted, but the code emits "Type change:
Fire → Fire", because the pandas `NaN` cells compare unequal under `!=`
(`main.py:47`). -/
def c5_base : Creature :=
  ⟨"CHARMANDER", "Fire", none, 39, 52, 43, 60, 50, 65⟩

def c5_evolved : Creature :=
  ⟨"CHARMELEON", "Fire", none, 58, 64, 58, 80, 65, 80⟩

theorem C5_nan_type_change_bug :
    c5_base.type1 = c5_evolved.type1 ∧
    c5_base.type2 = none ∧ c5_evolved.type2 = none ∧
    Tag.typeChange "Fire" "Fire" ∈
      (analyze_evolution_option c5_base c5_evolved).benefits := by
  decide

/-! ## Embedding of `src/team_analyzer.py` and the team interface of
`src/main.py`

Python exceptions are modelled with `Except PyErr`: `.iloc[0]` on an empty
selection raises `IndexError`, `list.index` on a missing element raises
`ValueError`; `main.analyze_team` catches `IndexError` specially. -/

inductive PyErr where
  | indexError
  | valueError
deriving DecidableEq, Repr

/-- A dataset row, with the columns the analyzer reads.  The 18
`against_<type>` float columns become the function `against`; the float
multipliers of the dataset are exact binary fractions, embedded as `Rat`. -/
structure PokeRecord where
  name : String
  type1 : String
  type2 : Option String
  hp : Int
  attack : Int
  defense : Int
  sp_attack : Int
  sp_defense : Int
  speed : Int
  base_total : Int
  generation : Int
  is_legendary : Bool
  against : String → Rat

/-- The 18 type-effectiveness columns of the dataset (suffixes of the
`against_` columns, in dataset order), computed once in
`TeamAnalyzer.__init__`. -/
def type_columns : List String :=
  ["bug", "dark", "dragon", "electric", "fairy", "fight", "fire", "flying",
   "ghost", "grass", "ground", "ice", "normal", "poison", "psychic", "rock",
   "steel", "water"]

/-- Embedding of `TeamAnalyzer.get_pokemon_data` (`team_analyzer.py:27-28`):
case-insensitive name match, first matching row; `IndexError` when no row
matches. -/
def get_pokemon_data (df : List PokeRecord) (name : String) :
    Except PyErr PokeRecord :=
  match (df.filter fun r => pyLower r.name == pyLower name).head? with
  | some r => .ok r
  | none => .error .indexError

/-- Python's `min` over a list.  `min([])` raises in Python; the analyzer
only ever applies it to the six team members, so the `[]` case (returning
`default`) is unreachable at every call site. -/
def pyMin {α : Type} [LinearOrder α] [Inhabited α] : List α → α
  | [] => default
  | x :: xs => xs.foldl min x

/-- Python's `max` over a list, same remarks as `pyMin`. -/
def pyMax {α : Type} [LinearOrder α] [Inhabited α] : List α → α
  | [] => default
  | x :: xs => xs.foldl max x

/-- Result dict of `_analyze_defense`. -/
structure DefenseReport where
  weaknesses : List String
  resistances : List String
  effectiveness : List (String × Rat)
deriving DecidableEq, Repr

/-- Embedding of `TeamAnalyzer._analyze_defense` (`team_analyzer.py:42-52`):
per type column the minimum multiplier across the team, then the strict
threshold tests against 1. -/
def _analyze_defense (team_data : List PokeRecord) : DefenseReport :=
  let effectiveness :=
    type_columns.map fun col => (col, pyMin (team_data.map fun p => p.against col))
  { weaknesses := (effectiveness.filter fun p => 1 < p.2).map Prod.fst
    resistances := (effectiveness.filter fun p => p.2 < 1).map Prod.fst
    effectiveness := effectiveness }

/-- Embedding of `TeamAnalyzer._analyze_offense` (`team_analyzer.py:54-61`).
Python collects the lower-cased types into a set; the embedding keeps
first-occurrence order. -/
def _analyze_offense (team_data : List PokeRecord) : List String :=
  (team_data.flatMap fun p =>
    pyLower p.type1 :: (match p.type2 with
      | some t => [pyLower t]
      | none => [])).eraseDups

/-- The duplicate dict of `_analyze_balance`: names occurring more than once
among the team rows (exact, case-sensitive match on the stored names), with
their counts.  Python iterates a set here; the embedding keeps
first-occurrence order. -/
def pyDuplicates (team_data : List PokeRecord) : List (String × Nat) :=
  let names := team_data.map (·.name)
  (names.eraseDups.filter fun n => 1 < names.count n).map fun n => (n, names.count n)

/-- The per-stat `{avg, min, max}` dict of `_analyze_balance` (the Python
keys `min`/`max` are rendered `statMin`/`statMax`). -/
structure StatSummary where
  avg : Rat
  statMin : Int
  statMax : Int
deriving DecidableEq, Repr

/-- The six stat columns, with their accessors, in source order. -/
def statAccessors : List (String × (PokeRecord → Int)) :=
  [("hp", PokeRecord.hp), ("attack", PokeRecord.attack),
   ("defense", PokeRecord.defense), ("sp_attack", PokeRecord.sp_attack),
   ("sp_defense", PokeRecord.sp_defense), ("speed", PokeRecord.speed)]

/-- Result dict of `_analyze_balance`. -/
structure BalanceReport where
  duplicates : List (String × Nat)
  stats : List (String × StatSummary)

/-- Embedding of `TeamAnalyzer._analyze_balance` (`team_analyzer.py:63-79`). -/
def _analyze_balance (team_data : List PokeRecord) : BalanceReport :=
  { duplicates := pyDuplicates team_data
    stats := statAccessors.map fun a =>
      (a.1,
        { avg := ((team_data.map fun p => ((a.2 p : Int) : Rat)).sum) /
            (team_data.length : Rat)
          statMin := pyMin (team_data.map a.2)
          statMax := pyMax (team_data.map a.2) }) }

/-- pandas `nlargest(n, 'base_total')`: the n largest rows by `base_total`
in descending order; ties keep the earlier row (pandas `keep='first'`,
matched by the stability of `mergeSort`). -/
def nlargest (n : Nat) (df : List PokeRecord) : List PokeRecord :=
  (df.mergeSort fun a b => decide (b.base_total ≤ a.base_total)).take n

/-- Result dict of `TeamAnalyzer.get_evolution_info`. -/
structure EvoInfo where
  stage : Nat
  total_stages : Nat
  can_evolve : Bool
deriving DecidableEq, Repr

/-- Embedding of `TeamAnalyzer.get_evolution_info`
(`team_analyzer.py:122-145`) over the loaded chain table
(`evolution_chains.json`): `.get(name_upper, [])`, the `if not chain`
early return, the guarded branch case and the unguarded `chain.index` call
(a `ValueError` when the name is not a plain stage of its chain). -/
def get_evolution_info (table : List (String × Chain)) (pokemon_name : String) :
    Except PyErr EvoInfo :=
  let u := pyUpper pokemon_name
  let chain := (lookupChain table u).getD []
  match chain.getLast? with
  | none => .ok ⟨0, 0, false⟩
  | some (Item.branch _) =>
    let current_stage :=
      if chain.contains (Item.name u) then chain.indexOf (Item.name u) + 1 else 1
    .ok ⟨current_stage, chain.length, decide (current_stage < chain.length)⟩
  | some (Item.name _) =>
    if chain.contains (Item.name u) then
      let current_stage := chain.indexOf (Item.name u) + 1
      .ok ⟨current_stage, chain.length, decide (current_stage < chain.length)⟩
    else .error .valueError

/-- Output dict of `TeamAnalyzer._format_pokemon`. -/
structure FormattedPokemon where
  name : String
  types : String
  base_total : Int
  evolution_stage : String
  can_evolve : Bool
deriving DecidableEq, Repr

/-- Embedding of `TeamAnalyzer._format_pokemon` (`team_analyzer.py:147-159`). -/
def _format_pokemon (table : List (String × Chain)) (p : PokeRecord) :
    Except PyErr FormattedPokemon :=
  match get_evolution_info table p.name with
  | .error e => .error e
  | .ok info =>
    .ok { name := p.name
          types := p.type1 ++ (match p.type2 with
            | some t => "/" ++ t
            | none => "")
          base_total := p.base_total
          evolution_stage :=
            if 0 < info.total_stages then
              "Stage " ++ toString info.stage ++ "/" ++ toString info.total_stages
            else "Final Form"
          can_evolve := info.can_evolve }

/-- One entry of the suggestions list of `_get_suggestions`. -/
inductive Suggestion where
  | duplicate (pokemon : String) (count : Nat)
      (replacements : List FormattedPokemon)
  | weakness (weak : String) (counters : List FormattedPokemon)
deriving DecidableEq, Repr

/-- List traversal in the `Except` monad: a Python list comprehension /
loop that stops at the first raised exception. -/
def mapExcept {α β : Type} (f : α → Except PyErr β) : List α → Except PyErr (List β)
  | [] => .ok []
  | x :: xs =>
    match f x with
    | .error e => .error e
    | .ok y =>
      match mapExcept f xs with
      | .error e => .error e
      | .ok ys => .ok (y :: ys)

/-- pandas `Series.between` (inclusive on both ends by default). -/
def betweenRat (lo hi x : Rat) : Bool :=
  decide (lo ≤ x ∧ x ≤ hi)

/-- The replacement-candidate filter of the duplicate pass
(`team_analyzer.py:89-94`): between ±`stat_range` of the average
base-stat-total, a different primary type than the duplicate, off-team,
non-legendary. -/
def duplicatePool (df : List PokeRecord) (team : List String)
    (avg_base_total stat_range : Rat) (dupType1 : String) : List PokeRecord :=
  df.filter fun p =>
    betweenRat (avg_base_total - stat_range) (avg_base_total + stat_range)
      (p.base_total : Rat) &&
    (p.type1 != dupType1) &&
    !(team.contains p.name) &&
    !p.is_legendary

/-- The counter-candidate filter of the weakness pass
(`team_analyzer.py:106-111`): effectiveness below 1 against the weakness
type, between ±`stat_range` of the average base-stat-total, off-team,
non-legendary. -/
def weaknessPool (df : List PokeRecord) (team : List String)
    (avg_base_total stat_range : Rat) (w : String) : List PokeRecord :=
  df.filter fun p =>
    decide (p.against w < 1) &&
    betweenRat (avg_base_total - stat_range) (avg_base_total + stat_range)
      (p.base_total : Rat) &&
    !(team.contains p.name) &&
    !p.is_legendary

/-- One iteration of the duplicate loop of `_get_suggestions`
(`team_analyzer.py:88-101`): look the duplicated name up again (its
`IndexError` would propagate), take the top 3 of the filtered pool, format
them, and emit the suggestion dict unconditionally. -/
def duplicateSuggestion (table : List (String × Chain)) (df : List PokeRecord)
    (team : List String) (avg_base_total stat_range : Rat) (d : String × Nat) :
    Except PyErr Suggestion :=
  match get_pokemon_data df d.1 with
  | .error e => .error e
  | .ok dup =>
    match mapExcept (_format_pokemon table)
        (nlargest 3 (duplicatePool df team avg_base_total stat_range dup.type1)) with
    | .error e => .error e
    | .ok fmts => .ok (.duplicate d.1 d.2 fmts)

/-- The `for weakness in defense['weaknesses']:` loop of `_get_suggestions`
(`team_analyzer.py:103-118`): filter, top 3, and append only when the
counter list is non-empty. -/
def weaknessLoop (table : List (String × Chain)) (df : List PokeRecord)
    (team : List String) (avg_base_total stat_range : Rat) :
    List String → Except PyErr (List Suggestion)
  | [] => .ok []
  | w :: ws =>
    let counters := nlargest 3 (weaknessPool df team avg_base_total stat_range w)
    if counters.isEmpty then
      weaknessLoop table df team avg_base_total stat_range ws
    else
      match mapExcept (_format_pokemon table) counters with
      | .error e => .error e
      | .ok fmts =>
        match weaknessLoop table df team avg_base_total stat_range ws with
        | .error e => .error e
        | .ok rest => .ok (Suggestion.weakness w fmts :: rest)

/-- Embedding of `TeamAnalyzer._get_suggestions` (`team_analyzer.py:81-120`):
`stat_range = avg_base_total * 0.20`, the duplicate pass over the duplicate
dict, then the weakness pass over the defensive weaknesses. -/
def _get_suggestions (table : List (String × Chain)) (df : List PokeRecord)
    (team : List String) (team_data : List PokeRecord) (avg_base_total : Rat) :
    Except PyErr (List Suggestion) :=
  let stat_range := avg_base_total * (20 / 100 : Rat)
  match mapExcept (duplicateSuggestion table df team avg_base_total stat_range)
      (pyDuplicates team_data) with
  | .error e => .error e
  | .ok dupSuggs =>
    match weaknessLoop table df team avg_base_total stat_range
        (_analyze_defense team_data).weaknesses with
    | .error e => .error e
    | .ok weakSuggs => .ok (dupSuggs ++ weakSuggs)

/-- Result dict of `TeamAnalyzer.analyze_team`. -/
structure TeamAnalysis where
  defense : DefenseReport
  offense : List String
  balance : BalanceReport
  suggestions : List Suggestion

/-- The average base-stat-total of the looked-up team rows
(`team_analyzer.py:33`): `sum(p['base_total'] for p in team_data) /
len(team_data)`. -/
def teamAvg (team_data : List PokeRecord) : Rat :=
  ((team_data.map fun p => (p.base_total : Rat)).sum) / (team_data.length : Rat)

/-- Embedding of `TeamAnalyzer.analyze_team` (`team_analyzer.py:30-40`): the
six lookups (the first missing name raises `IndexError`), the average
base-stat-total, and the four report sections. -/
def analyzer_analyze_team (table : List (String × Chain)) (df : List PokeRecord)
    (team : List String) : Except PyErr TeamAnalysis :=
  match mapExcept (get_pokemon_data df) team with
  | .error e => .error e
  | .ok team_data =>
    match _get_suggestions table df team team_data (teamAvg team_data) with
    | .error e => .error e
    | .ok suggestions =>
      .ok { defense := _analyze_defense team_data
            offense := _analyze_offense team_data
            balance := _analyze_balance team_data
            suggestions := suggestions }

/-- Outcome of one run of `main.analyze_team` (`main.py:234-297`): the
size check before any analysis, the `except IndexError` branch, the generic
`except Exception` branch, and the fully rendered report.  In every case the
function returns to the caller's input loop. -/
inductive TeamOutcome where
  | badSize
  | notFound
  | otherError
  | report (analysis : TeamAnalysis)

/-- Embedding of `main.analyze_team` (`main.py:234-297`): reject any team
whose length is not 6 before constructing any analysis; otherwise run the
analyzer and catch `IndexError` as the not-found message. -/
def analyze_team (table : List (String × Chain)) (df : List PokeRecord)
    (team : List String) : TeamOutcome :=
  if team.length ≠ 6 then .badSize
  else match analyzer_analyze_team table df team with
    | .ok a => .report a
    | .error .indexError => .notFound
    | .error .valueError => .otherError

/-! ## Facts about `pyMin` (Python's `min` over a non-empty list) -/

lemma foldl_min_le_start {α : Type} [LinearOrder α] (xs : List α) (a : α) :
    xs.foldl min a ≤ a := by
  induction xs generalizing a with
  | nil => exact le_refl a
  | cons y ys ih =>
    calc (y :: ys).foldl min a = ys.foldl min (min a y) := rfl
    _ ≤ min a y := ih (min a y)
    _ ≤ a := min_le_left a y

lemma foldl_min_le_mem {α : Type} [LinearOrder α] {xs : List α} {x : α} (a : α)
    (hx : x ∈ xs) : xs.foldl min a ≤ x := by
  induction xs generalizing a with
  | nil => cases hx
  | cons y ys ih =>
    rcases List.mem_cons.mp hx with rfl | hmem
    · calc (x :: ys).foldl min a = ys.foldl min (min a x) := rfl
      _ ≤ min a x := foldl_min_le_start ys (min a x)
      _ ≤ x := min_le_right a x
    · exact ih (min a y) hmem

lemma foldl_min_mem {α : Type} [LinearOrder α] (xs : List α) (a : α) :
    xs.foldl min a = a ∨ xs.foldl min a ∈ xs := by
  induction xs generalizing a with
  | nil => exact Or.inl rfl
  | cons y ys ih =>
    rcases ih (min a y) with heq | hmem
    · rcases min_choice a y with hc | hc
      · exact Or.inl (by rw [List.foldl_cons, heq, hc])
      · exact Or.inr (by rw [List.foldl_cons, heq, hc]; exact List.mem_cons_self y ys)
    · exact Or.inr (List.mem_cons_of_mem y hmem)

lemma pyMin_le {α : Type} [LinearOrder α] [Inhabited α] {l : List α} {x : α}
    (hx : x ∈ l) : pyMin l ≤ x := by
  cases l with
  | nil => cases hx
  | cons a as =>
    rcases List.mem_cons.mp hx with rfl | hmem
    · exact foldl_min_le_start as x
    · exact foldl_min_le_mem a hmem

lemma pyMin_mem {α : Type} [LinearOrder α] [Inhabited α] {l : List α}
    (hne : l ≠ []) : pyMin l ∈ l := by
  cases l with
  | nil => exact absurd rfl hne
  | cons a as =>
    rcases foldl_min_mem as a with heq | hmem
    · rw [pyMin, heq]; exact List.mem_cons_self a as
    · exact List.mem_cons_of_mem a hmem

/-- The minimum type-effectiveness multiplier of the team against attack
type `t` (the value `_analyze_defense` stores in `effectiveness`). -/
def minEff (team_data : List PokeRecord) (t : String) : Rat :=
  pyMin (team_data.map fun p => p.against t)

lemma mem_filtered_map (l : List String) (f : String → Rat) (pred : Rat → Bool)
    (t : String) :
    (t ∈ (((l.map fun c => (c, f c)).filter fun pr => pred pr.2).map Prod.fst)) ↔
      t ∈ l ∧ pred (f t) = true := by
  constructor
  · intro h
    rcases List.mem_map.mp h with ⟨pr, hpr, hfst⟩
    rcases List.mem_filter.mp hpr with ⟨hmem, hpred⟩
    rcases List.mem_map.mp hmem with ⟨c, hc, hceq⟩
    subst hceq
    have hct : c = t := hfst
    subst hct
    exact ⟨hc, hpred⟩
  · rintro ⟨hl, hp⟩
    exact List.mem_map.mpr ⟨(t, f t),
      List.mem_filter.mpr ⟨List.mem_map.mpr ⟨t, hl, rfl⟩, hp⟩, rfl⟩

/-- C6.  The defensive envelope assigns each type column the minimum
multiplier across the 6 team members; a type is listed a weakness exactly
when that minimum exceeds 1 and a resistance exactly when it is below 1;
the two lists are disjoint and both exclude every type whose minimum is
exactly 1. -/
theorem C6_defense_envelope (team_data : List PokeRecord) (t : String)
    (p : PokeRecord) (h6 : team_data.length = 6) :
    (t ∈ (_analyze_defense team_data).weaknesses ↔
      t ∈ type_columns ∧ 1 < minEff team_data t) ∧
    (t ∈ (_analyze_defense team_data).resistances ↔
      t ∈ type_columns ∧ minEff team_data t < 1) ∧
    ¬(t ∈ (_analyze_defense team_data).weaknesses ∧
      t ∈ (_analyze_defense team_data).resistances) ∧
    (minEff team_data t = 1 →
      t ∉ (_analyze_defense team_data).weaknesses ∧
      t ∉ (_analyze_defense team_data).resistances) ∧
    (p ∈ team_data → minEff team_data t ≤ p.against t) ∧
    (∃ q ∈ team_data, minEff team_data t = q.against t) := by
  have hweq : (_analyze_defense team_data).weaknesses =
      ((type_columns.map fun c => (c, minEff team_data c)).filter
        fun pr => decide (1 < pr.2)).map Prod.fst := rfl
  have hreq : (_analyze_defense team_data).resistances =
      ((type_columns.map fun c => (c, minEff team_data c)).filter
        fun pr => decide (pr.2 < 1)).map Prod.fst := rfl
  have hw : t ∈ (_analyze_defense team_data).weaknesses ↔
      t ∈ type_columns ∧ 1 < minEff team_data t := by
    rw [hweq, mem_filtered_map type_columns (fun c => minEff team_data c)
      (fun v => decide (1 < v)) t]
    simp
  have hr : t ∈ (_analyze_defense team_data).resistances ↔
      t ∈ type_columns ∧ minEff team_data t < 1 := by
    rw [hreq, mem_filtered_map type_columns (fun c => minEff team_data c)
      (fun v => decide (v < 1)) t]
    simp
  refine ⟨hw, hr, ?_, ?_, ?_, ?_⟩
  · rintro ⟨hin1, hin2⟩
    exact absurd ((hr.mp hin2).2) (not_lt_of_lt (hw.mp hin1).2)
  · intro heq
    constructor
    · intro hin
      rw [heq] at hw
      exact lt_irrefl 1 (hw.mp hin).2
    · intro hin
      rw [heq] at hr
      exact lt_irrefl 1 (hr.mp hin).2
  · intro hp
    exact pyMin_le (List.mem_map.mpr ⟨p, hp, rfl⟩)
  · have hne : team_data.map (fun p => p.against t) ≠ [] := by
      intro hnil
      have := congrArg List.length hnil
      rw [List.length_map, h6] at this
      exact absurd this (by decide)
    rcases List.mem_map.mp (pyMin_mem hne) with ⟨q, hq, hqe⟩
    exact ⟨q, hq, hqe.symm⟩

/-- The team used by the concrete witnesses: six copies of one record that
is weak to fire. -/
def sampleAgainst : String → Rat :=
  fun t => if t = "fire" then 2 else 1

def sampleRec : PokeRecord :=
  { name := "A", type1 := "water", type2 := none,
    hp := 50, attack := 50, defense := 50, sp_attack := 50, sp_defense := 50,
    speed := 50, base_total := 300, generation := 1, is_legendary := false,
    against := sampleAgainst }

def sampleTeam : List PokeRecord :=
  [sampleRec, sampleRec, sampleRec, sampleRec, sampleRec, sampleRec]

/-- Witness for C6 at a concrete 6-member team and the type `fire`. -/
theorem C6_witness :
    sampleTeam.length = 6 ∧
    ("fire" ∈ (_analyze_defense sampleTeam).weaknesses ↔
      "fire" ∈ type_columns ∧ 1 < minEff sampleTeam "fire") :=
  ⟨rfl, (C6_defense_envelope sampleTeam "fire" sampleRec rfl).1⟩

/-! ## C8 and C9: the team interface of `main.py` -/

/-- C8.  Any input list whose length is not 6 is rejected with the size
message before any analysis is constructed. -/
theorem C8_rejects_wrong_size (table : List (String × Chain))
    (df : List PokeRecord) (team : List String) (h : team.length ≠ 6) :
    analyze_team table df team = .badSize := by
  unfold analyze_team
  rw [if_pos h]

/-- Witness for C8 at a concrete 2-element team. -/
theorem C8_witness :
    (["A", "B"].length ≠ 6) ∧
    analyze_team [] [] ["A", "B"] = .badSize :=
  ⟨by decide, C8_rejects_wrong_size [] [] ["A", "B"] (by decide)⟩

lemma get_pokemon_data_error {df : List PokeRecord} {n : String} {e : PyErr}
    (h : get_pokemon_data df n = .error e) : e = .indexError := by
  unfold get_pokemon_data at h
  cases hh : (df.filter fun r => pyLower r.name == pyLower n).head? with
  | some r => rw [hh] at h; cases h
  | none => rw [hh] at h; cases h; rfl

lemma mapExcept_error_of_mem {α β : Type} (f : α → Except PyErr β)
    (l : List α) (h : ∃ a ∈ l, ∃ e, f a = .error e)
    (hidx : ∀ a e, f a = Except.error e → e = PyErr.indexError) :
    mapExcept f l = .error .indexError := by
  induction l with
  | nil => rcases h with ⟨a, ha, _⟩; cases ha
  | cons x xs ih =>
    cases hfx : f x with
    | error e =>
      have he := hidx x e hfx
      subst he
      simp [mapExcept, hfx]
    | ok y =>
      rcases h with ⟨a, ha, e, hae⟩
      rcases List.mem_cons.mp ha with rfl | hmem
      · rw [hfx] at hae; cases hae
      · have hrec := ih ⟨a, hmem, e, hae⟩
        simp [mapExcept, hfx, hrec]

/-- C9.  For a team of 6 names of which at least one matches no dataset
record, the analyzer's lookup raises the not-found condition, no report is
produced, and `main.analyze_team` renders it as the not-found message (the
outcome is `notFound`, not a partial `report`), returning control to the
input loop. -/
theorem C9_missing_name_aborts (table : List (String × Chain))
    (df : List PokeRecord) (team : List String) (h6 : team.length = 6)
    (hmiss : ∃ n ∈ team, ∃ e, get_pokemon_data df n = .error e) :
    analyze_team table df team = .notFound := by
  have hlook : mapExcept (get_pokemon_data df) team = .error .indexError :=
    mapExcept_error_of_mem _ _ hmiss fun a e he => get_pokemon_data_error he
  have hanalyzer : analyzer_analyze_team table df team = .error .indexError := by
    unfold analyzer_analyze_team
    rw [hlook]
  unfold analyze_team
  rw [if_neg (by rw [h6]; exact fun hc => hc rfl), hanalyzer]

/-- Witness for C9: a concrete 6-name team whose last name is unknown. -/
theorem C9_witness :
    ((["A", "A", "A", "A", "A", "MISSINGNO"] : List String).length = 6) ∧
    (∃ n ∈ (["A", "A", "A", "A", "A", "MISSINGNO"] : List String), ∃ e,
      get_pokemon_data [sampleRec] n = .error e) ∧
    analyze_team [] [sampleRec] ["A", "A", "A", "A", "A", "MISSINGNO"] = .notFound :=
  ⟨rfl, ⟨"MISSINGNO", by decide, PyErr.indexError, rfl⟩,
    C9_missing_name_aborts [] [sampleRec] _ rfl
      ⟨"MISSINGNO", by decide, PyErr.indexError, rfl⟩⟩

/-- C10.  A creature name absent from the loaded evolution-chain table gets
`stage 0, total_stages 0, can_evolve false` from `get_evolution_info`, and
`_format_pokemon` annotates such a candidate with the label "Final Form" —
the unknown creature is presented as fully evolved rather than as missing
data. -/
theorem C10_unknown_name_is_final_form (table : List (String × Chain))
    (p : PokeRecord) (h : lookupChain table (pyUpper p.name) = none) :
    get_evolution_info table p.name = .ok ⟨0, 0, false⟩ ∧
    ∃ f, _format_pokemon table p = .ok f ∧
      f.evolution_stage = "Final Form" ∧ f.can_evolve = false := by
  have hinfo : get_evolution_info table p.name = .ok ⟨0, 0, false⟩ := by
    simp only [get_evolution_info, h]
    rfl
  refine ⟨hinfo, ?_⟩
  refine ⟨{ name := p.name
            types := p.type1 ++ (match p.type2 with
              | some t => "/" ++ t
              | none => "")
            base_total := p.base_total
            evolution_stage := "Final Form"
            can_evolve := false }, ?_, rfl, rfl⟩
  unfold _format_pokemon
  rw [hinfo]
  rfl

/-- Witness for C10: the empty chain table and the concrete record `A`. -/
theorem C10_witness :
    lookupChain [] (pyUpper sampleRec.name) = none ∧
    get_evolution_info [] sampleRec.name = .ok ⟨0, 0, false⟩ :=
  ⟨rfl, (C10_unknown_name_is_final_form [] sampleRec rfl).1⟩

/-! ## Facts about `nlargest` and `mapExcept`, towards C7 -/

lemma length_nlargest (n : Nat) (df : List PokeRecord) :
    (nlargest n df).length ≤ n := by
  unfold nlargest
  rw [List.length_take]
  exact min_le_left _ _

lemma mem_nlargest {n : Nat} {df : List PokeRecord} {x : PokeRecord}
    (h : x ∈ nlargest n df) : x ∈ df := by
  unfold nlargest at h
  have hms := (List.take_sublist n _).subset h
  exact (List.mergeSort_perm df _).mem_iff.mp hms

lemma sorted_nlargest (n : Nat) (df : List PokeRecord) :
    (nlargest n df).Pairwise (fun a b => b.base_total ≤ a.base_total) := by
  have htrans : ∀ a b c : PokeRecord,
      decide (b.base_total ≤ a.base_total) = true →
      decide (c.base_total ≤ b.base_total) = true →
      decide (c.base_total ≤ a.base_total) = true := by
    intro a b c hab hbc
    exact decide_eq_true (le_trans (of_decide_eq_true hbc) (of_decide_eq_true hab))
  have htotal : ∀ a b : PokeRecord,
      (decide (b.base_total ≤ a.base_total) ||
        decide (a.base_total ≤ b.base_total)) = true := by
    intro a b
    rw [Bool.or_eq_true, decide_eq_true_eq, decide_eq_true_eq]
    exact le_total b.base_total a.base_total
  have hs := List.sorted_mergeSort htrans htotal df
  have hp : (df.mergeSort fun a b => decide (b.base_total ≤ a.base_total)).Pairwise
      (fun a b => b.base_total ≤ a.base_total) :=
    hs.imp fun h => of_decide_eq_true h
  exact List.Pairwise.sublist (List.take_sublist n _) hp

lemma mapExcept_ok_length {α β : Type} {f : α → Except PyErr β} {l : List α}
    {ys : List β} (h : mapExcept f l = .ok ys) : ys.length = l.length := by
  induction l generalizing ys with
  | nil => unfold mapExcept at h; cases h; rfl
  | cons x xs ih =>
    unfold mapExcept at h
    cases hfx : f x with
    | error e => rw [hfx] at h; cases h
    | ok y =>
      rw [hfx] at h
      cases hrec : mapExcept f xs with
      | error e => rw [hrec] at h; cases h
      | ok ys' =>
        rw [hrec] at h
        cases h
        simp [ih hrec]

lemma mapExcept_ok_mem {α β : Type} {f : α → Except PyErr β} {l : List α}
    {ys : List β} (h : mapExcept f l = .ok ys) {y : β} (hy : y ∈ ys) :
    ∃ x ∈ l, f x = .ok y := by
  induction l generalizing ys with
  | nil => unfold mapExcept at h; cases h; cases hy
  | cons x xs ih =>
    unfold mapExcept at h
    cases hfx : f x with
    | error e => rw [hfx] at h; cases h
    | ok y' =>
      rw [hfx] at h
      cases hrec : mapExcept f xs with
      | error e => rw [hrec] at h; cases h
      | ok ys' =>
        rw [hrec] at h
        cases h
        rcases List.mem_cons.mp hy with rfl | hmem
        · exact ⟨x, List.mem_cons_self x xs, hfx⟩
        · rcases ih hrec hmem with ⟨x', hx', hfx'⟩
          exact ⟨x', List.mem_cons_of_mem x hx', hfx'⟩

lemma mapExcept_ok_map {α β γ : Type} {f : α → Except PyErr β} {g : β → γ}
    {gf : α → γ} (hpres : ∀ x y, f x = .ok y → g y = gf x) :
    ∀ {l : List α} {ys : List β}, mapExcept f l = .ok ys → ys.map g = l.map gf := by
  intro l
  induction l with
  | nil => intro ys h; unfold mapExcept at h; cases h; rfl
  | cons x xs ih =>
    intro ys h
    unfold mapExcept at h
    cases hfx : f x with
    | error e => rw [hfx] at h; cases h
    | ok y =>
      rw [hfx] at h
      cases hrec : mapExcept f xs with
      | error e => rw [hrec] at h; cases h
      | ok ys' =>
        rw [hrec] at h
        cases h
        simp [hpres x y hfx, ih hrec]

lemma format_base_total {table : List (String × Chain)} {p : PokeRecord}
    {f : FormattedPokemon} (h : _format_pokemon table p = .ok f) :
    f.base_total = p.base_total := by
  unfold _format_pokemon at h
  cases hinfo : get_evolution_info table p.name with
  | error e => rw [hinfo] at h; cases h
  | ok info => rw [hinfo] at h; cases h; rfl

/-- The candidate lists of one suggestion (its `replacements` or its
`counters`). -/
def candList : Suggestion → List FormattedPokemon
  | .duplicate _ _ r => r
  | .weakness _ c => c

lemma candidates_ok {table : List (String × Chain)} {pool : List PokeRecord}
    {fmts : List FormattedPokemon}
    (h : mapExcept (_format_pokemon table) (nlargest 3 pool) = .ok fmts) :
    fmts.length ≤ 3 ∧
    fmts.Pairwise (fun a b => b.base_total ≤ a.base_total) ∧
    ∀ f ∈ fmts, ∃ r ∈ pool, _format_pokemon table r = .ok f := by
  refine ⟨?_, ?_, ?_⟩
  · rw [mapExcept_ok_length h]
    exact length_nlargest 3 pool
  · have hmap : fmts.map FormattedPokemon.base_total =
        (nlargest 3 pool).map PokeRecord.base_total :=
      mapExcept_ok_map (fun x y hxy => format_base_total hxy) h
    have h1 : ((nlargest 3 pool).map PokeRecord.base_total).Pairwise
        (fun a b => b ≤ a) :=
      List.pairwise_map.mpr ((sorted_nlargest 3 pool).imp fun hab => hab)
    rw [← hmap] at h1
    exact List.pairwise_map.mp h1
  · intro f hf
    rcases mapExcept_ok_mem h hf with ⟨r, hr, hfr⟩
    exact ⟨r, mem_nlargest hr, hfr⟩

lemma mem_duplicatePool {df : List PokeRecord} {team : List String}
    {avg range : Rat} {dt : String} {p : PokeRecord}
    (h : p ∈ duplicatePool df team avg range dt) :
    p ∈ df ∧ avg - range ≤ (p.base_total : Rat) ∧
    (p.base_total : Rat) ≤ avg + range ∧ p.type1 ≠ dt ∧
    team.contains p.name = false ∧ p.is_legendary = false := by
  rcases List.mem_filter.mp h with ⟨hdf, hcond⟩
  simp only [Bool.and_eq_true, Bool.not_eq_true', betweenRat,
    decide_eq_true_eq, bne_iff_ne] at hcond
  tauto

lemma mem_weaknessPool {df : List PokeRecord} {team : List String}
    {avg range : Rat} {w : String} {p : PokeRecord}
    (h : p ∈ weaknessPool df team avg range w) :
    p ∈ df ∧ p.against w < 1 ∧ avg - range ≤ (p.base_total : Rat) ∧
    (p.base_total : Rat) ≤ avg + range ∧
    team.contains p.name = false ∧ p.is_legendary = false := by
  rcases List.mem_filter.mp h with ⟨hdf, hcond⟩
  simp only [Bool.and_eq_true, Bool.not_eq_true', betweenRat,
    decide_eq_true_eq] at hcond
  tauto

lemma duplicateSuggestion_ok {table : List (String × Chain)}
    {df : List PokeRecord} {team : List String} {avg range : Rat}
    {d : String × Nat} {s : Suggestion}
    (h : duplicateSuggestion table df team avg range d = .ok s) :
    ∃ dup, get_pokemon_data df d.1 = .ok dup ∧ ∃ fmts,
      s = .duplicate d.1 d.2 fmts ∧
      mapExcept (_format_pokemon table)
        (nlargest 3 (duplicatePool df team avg range dup.type1)) = .ok fmts := by
  unfold duplicateSuggestion at h
  cases hdp : get_pokemon_data df d.1 with
  | error e => rw [hdp] at h; cases h
  | ok dup =>
    rw [hdp] at h
    dsimp only at h
    cases hfmt : mapExcept (_format_pokemon table)
        (nlargest 3 (duplicatePool df team avg range dup.type1)) with
    | error e => rw [hfmt] at h; cases h
    | ok fmts =>
      rw [hfmt] at h
      cases h
      exact ⟨dup, rfl, fmts, rfl, hfmt⟩

lemma weaknessLoop_ok_mem {table : List (String × Chain)} {df : List PokeRecord}
    {team : List String} {avg range : Rat} {ws : List String}
    {suggs : List Suggestion}
    (h : weaknessLoop table df team avg range ws = .ok suggs) :
    ∀ s ∈ suggs, ∃ w ∈ ws, ∃ fmts,
      s = .weakness w fmts ∧
      nlargest 3 (weaknessPool df team avg range w) ≠ [] ∧
      mapExcept (_format_pokemon table)
        (nlargest 3 (weaknessPool df team avg range w)) = .ok fmts := by
  induction ws generalizing suggs with
  | nil =>
    unfold weaknessLoop at h
    cases h
    intro s hs
    cases hs
  | cons w ws' ih =>
    simp only [weaknessLoop] at h
    cases hemp : (nlargest 3 (weaknessPool df team avg range w)).isEmpty with
    | true =>
      rw [hemp] at h
      simp only [if_true] at h
      intro s hs
      rcases ih h s hs with ⟨w', hw', rest⟩
      exact ⟨w', List.mem_cons_of_mem w hw', rest⟩
    | false =>
      rw [hemp] at h
      simp only [Bool.false_eq_true, if_false] at h
      cases hfmt : mapExcept (_format_pokemon table)
          (nlargest 3 (weaknessPool df team avg range w)) with
      | error e => rw [hfmt] at h; cases h
      | ok fmts =>
        rw [hfmt] at h
        cases hrec : weaknessLoop table df team avg range ws' with
        | error e => rw [hrec] at h; cases h
        | ok rest =>
          rw [hrec] at h
          cases h
          intro s hs
          rcases List.mem_cons.mp hs with rfl | hmem
          · refine ⟨w, List.mem_cons_self w ws', fmts, rfl, ?_, hfmt⟩
            intro hnil
            rw [hnil] at hemp
            simp at hemp
          · rcases ih hrec s hmem with ⟨w', hw', rest'⟩
            exact ⟨w', List.mem_cons_of_mem w hw', rest'⟩

lemma suggestions_candidates {table : List (String × Chain)}
    {df : List PokeRecord} {team : List String} {team_data : List PokeRecord}
    {avg : Rat} {suggs : List Suggestion} {s : Suggestion}
    (h : _get_suggestions table df team team_data avg = .ok suggs)
    (hs : s ∈ suggs) :
    (candList s).length ≤ 3 ∧
    (candList s).Pairwise (fun a b => b.base_total ≤ a.base_total) ∧
    (∀ w fs, s = .weakness w fs → fs ≠ []) ∧
    (∀ f ∈ candList s, ∃ r ∈ df,
      _format_pokemon table r = .ok f ∧
      r.is_legendary = false ∧
      team.contains r.name = false ∧
      avg - avg * (20 / 100) ≤ (r.base_total : Rat) ∧
      (r.base_total : Rat) ≤ avg + avg * (20 / 100) ∧
      (∀ nm cnt fs, s = .duplicate nm cnt fs →
        ∃ dup, get_pokemon_data df nm = .ok dup ∧ r.type1 ≠ dup.type1) ∧
      (∀ w fs, s = .weakness w fs → r.against w < 1)) := by
  simp only [_get_suggestions] at h
  cases hdup : mapExcept
      (duplicateSuggestion table df team avg (avg * (20 / 100)))
      (pyDuplicates team_data) with
  | error e => rw [hdup] at h; cases h
  | ok dupSuggs =>
    rw [hdup] at h
    dsimp only at h
    cases hweak : weaknessLoop table df team avg (avg * (20 / 100))
        (_analyze_defense team_data).weaknesses with
    | error e => rw [hweak] at h; cases h
    | ok weakSuggs =>
      rw [hweak] at h
      cases h
      rcases List.mem_append.mp hs with hmem | hmem
      · rcases mapExcept_ok_mem hdup hmem with ⟨d, _, hds⟩
        rcases duplicateSuggestion_ok hds with ⟨dup, hdupok, fmts, rfl, hfmt⟩
        rcases candidates_ok hfmt with ⟨hlen, hsort, hmemf⟩
        refine ⟨hlen, hsort, ?_, ?_⟩
        · intro w fs hws
          cases hws
        · intro f hf
          rcases hmemf f hf with ⟨r, hrpool, hrfmt⟩
          rcases mem_duplicatePool hrpool with ⟨hrdf, hlo, hhi, hty, hteam, hleg⟩
          refine ⟨r, hrdf, hrfmt, hleg, hteam, hlo, hhi, ?_, ?_⟩
          · rintro nm cnt fs heq
            cases heq
            exact ⟨dup, hdupok, hty⟩
          · intro w fs hws
            cases hws
      · rcases weaknessLoop_ok_mem hweak s hmem with ⟨w, _, fmts, rfl, hne, hfmt⟩
        rcases candidates_ok hfmt with ⟨hlen, hsort, hmemf⟩
        refine ⟨hlen, hsort, ?_, ?_⟩
        · rintro w' fs' heq
          cases heq
          intro hnil
          have hlen0 := mapExcept_ok_length hfmt
          rw [hnil] at hlen0
          exact hne (List.length_eq_zero.mp hlen0.symm)
        · intro f hf
          rcases hmemf f hf with ⟨r, hrpool, hrfmt⟩
          rcases mem_weaknessPool hrpool with ⟨hrdf, hag, hlo, hhi, hteam, hleg⟩
          refine ⟨r, hrdf, hrfmt, hleg, hteam, hlo, hhi, ?_, ?_⟩
          · rintro nm cnt fs heq
            cases heq
          · rintro w' fs' heq
            cases heq
            exact hag

/-- C7.  Every candidate in any suggestion of an analysis report is drawn
from the dataset, formats to the reported entry, is non-legendary, carries a
name not on the team list, and has a base-stat-total within ±20% of the
team's average base-stat-total; each trigger lists at most 3 candidates, in
descending base-stat-total order; replacements for a duplicated name have a
primary type different from the duplicate's looked-up record; counters for
a weakness type have effectiveness below 1 against it, and a weakness
suggestion is only ever present with a non-empty candidate list. -/
theorem C7_suggestion_candidates (table : List (String × Chain))
    (df : List PokeRecord) (team : List String) (suggs : List Suggestion)
    (s : Suggestion)
    (h : (analyzer_analyze_team table df team).map TeamAnalysis.suggestions =
      .ok suggs)
    (hs : s ∈ suggs) :
    ∃ team_data, mapExcept (get_pokemon_data df) team = .ok team_data ∧
      ((candList s).length ≤ 3 ∧
       (candList s).Pairwise (fun a b => b.base_total ≤ a.base_total) ∧
       (∀ w fs, s = .weakness w fs → fs ≠ []) ∧
       (∀ f ∈ candList s, ∃ r ∈ df,
         _format_pokemon table r = .ok f ∧
         r.is_legendary = false ∧
         team.contains r.name = false ∧
         teamAvg team_data - teamAvg team_data * (20 / 100) ≤ (r.base_total : Rat) ∧
         (r.base_total : Rat) ≤ teamAvg team_data + teamAvg team_data * (20 / 100) ∧
         (∀ nm cnt fs, s = .duplicate nm cnt fs →
           ∃ dup, get_pokemon_data df nm = .ok dup ∧ r.type1 ≠ dup.type1) ∧
         (∀ w fs, s = .weakness w fs → r.against w < 1))) := by
  unfold analyzer_analyze_team at h
  cases htd : mapExcept (get_pokemon_data df) team with
  | error e => rw [htd] at h; cases h
  | ok team_data =>
    rw [htd] at h
    dsimp only at h
    cases hsugg : _get_suggestions table df team team_data (teamAvg team_data) with
    | error e => rw [hsugg] at h; cases h
    | ok sg =>
      rw [hsugg] at h
      have hsg : sg = suggs := by
        simpa [Except.map] using h
      subst hsg
      exact ⟨team_data, rfl, suggestions_candidates hsugg hs⟩

/-! Concrete world for the C7 witness: a three-record dataset (one of them
legendary), a team of six copies of the first record, and the empty chain
table. -/

def wAgainstA : String → Rat :=
  fun t => if t = "fire" then 2 else 1

def wAgainstB : String → Rat :=
  fun t => if t = "fire" then (1 / 2 : Rat) else 1

def wRecA : PokeRecord :=
  { name := "A", type1 := "water", type2 := none,
    hp := 50, attack := 50, defense := 50, sp_attack := 50, sp_defense := 50,
    speed := 50, base_total := 300, generation := 1, is_legendary := false,
    against := wAgainstA }

def wRecB : PokeRecord :=
  { name := "B", type1 := "fire", type2 := none,
    hp := 55, attack := 55, defense := 55, sp_attack := 55, sp_defense := 55,
    speed := 45, base_total := 320, generation := 1, is_legendary := false,
    against := wAgainstB }

def wRecC : PokeRecord :=
  { name := "C", type1 := "dragon", type2 := none,
    hp := 55, attack := 55, defense := 55, sp_attack := 55, sp_defense := 55,
    speed := 55, base_total := 330, generation := 1, is_legendary := true,
    against := wAgainstB }

def wDf : List PokeRecord := [wRecA, wRecB, wRecC]

def wTeam : List String := ["A", "A", "A", "A", "A", "A"]

def wFmtB : FormattedPokemon :=
  { name := "B", types := "fire", base_total := 320,
    evolution_stage := "Final Form", can_evolve := false }

def wSuggs : List Suggestion :=
  [Suggestion.duplicate "A" 6 [wFmtB], Suggestion.weakness "fire" [wFmtB]]

/-- Witness for C7 at the concrete world: the report's suggestion list
evaluates to a duplicate suggestion and a fire-weakness suggestion, both
offering only the non-legendary off-team record B. -/
theorem C7_witness :
    (analyzer_analyze_team [] wDf wTeam).map TeamAnalysis.suggestions =
      .ok wSuggs ∧
    Suggestion.duplicate "A" 6 [wFmtB] ∈ wSuggs ∧
    ∃ team_data, mapExcept (get_pokemon_data wDf) wTeam = .ok team_data ∧
      ((candList (Suggestion.duplicate "A" 6 [wFmtB])).length ≤ 3 ∧
       (candList (Suggestion.duplicate "A" 6 [wFmtB])).Pairwise
         (fun a b => b.base_total ≤ a.base_total) ∧
       (∀ w fs, Suggestion.duplicate "A" 6 [wFmtB] = .weakness w fs → fs ≠ []) ∧
       (∀ f ∈ candList (Suggestion.duplicate "A" 6 [wFmtB]), ∃ r ∈ wDf,
         _format_pokemon [] r = .ok f ∧
         r.is_legendary = false ∧
         wTeam.contains r.name = false ∧
         teamAvg team_data - teamAvg team_data * (20 / 100) ≤ (r.base_total : Rat) ∧
         (r.base_total : Rat) ≤ teamAvg team_data + teamAvg team_data * (20 / 100) ∧
         (∀ nm cnt fs, Suggestion.duplicate "A" 6 [wFmtB] = .duplicate nm cnt fs →
           ∃ dup, get_pokemon_data wDf nm = .ok dup ∧ r.type1 ≠ dup.type1) ∧
         (∀ w fs, Suggestion.duplicate "A" 6 [wFmtB] = .weakness w fs →
           r.against w < 1))) :=
  ⟨by with_unfolding_all rfl, by decide,
    C7_suggestion_candidates [] wDf wTeam wSuggs
      (Suggestion.duplicate "A" 6 [wFmtB]) (by with_unfolding_all rfl) (by decide)⟩

end PokeAdvisor
